import Mathlib

/-!
Verification of `freepcb2pretty.py`: a converter from FreePCB footprint
libraries to KiCad "pretty" libraries.

The source program is shallowly embedded below.  Python floats are modelled
as exact rationals (`ℚ`); the trigonometric arc-center computation is
modelled over the reals (`ℝ`).  Functions that can raise at runtime
(attribute access on `None`, `min`/`max` of an empty list, negating `None`)
return `Option`/`Except`, with `none`/`.error` standing for the raised
exception.  `to_mm` in the source falls off the end of the function for an
unrecognized unit string and returns Python `None`; this is modelled by
`Option ℚ`, and a `None` that flows *into* an emitted s-expression value
(without being negated first) is modelled by the `Sexp.num (q : Option ℚ)`
payload.
-/

namespace Freepcb2Pretty

/-- Pad shape code `PAD_NONE` (source line 67).  Shape codes are parsed from
floats in the input file, so they are modelled as `ℚ`. -/
def PAD_NONE : ℚ := 0

/-- Pad shape code `PAD_ROUND` (source line 68). -/
def PAD_ROUND : ℚ := 1

/-- Pad shape code `PAD_SQUARE` (source line 69). -/
def PAD_SQUARE : ℚ := 2

/-- Pad shape code `PAD_RECT` (source line 70). -/
def PAD_RECT : ℚ := 3

/-- Pad shape code `PAD_RRECT` (source line 71). -/
def PAD_RRECT : ℚ := 4

/-- Pad shape code `PAD_OVAL` (source line 72). -/
def PAD_OVAL : ℚ := 5

/-- Pad shape code `PAD_OCTAGON` (source line 73). -/
def PAD_OCTAGON : ℚ := 6

/-- `to_mm (n, units)` (source lines 146-156): convert FreePCB units to
millimeters.  Nanometers are divided by 1000000, millimeters pass through,
mils are multiplied by 0.0254; any other unit string reaches the bare
`return` at the end of the function and yields Python `None`, modelled as
`Option.none`. -/
def to_mm (n : ℚ) (units : String) : Option ℚ :=
  if units = "NM" then some (n / 1000000)
  else if units = "MM" then some n
  else if units = "MIL" then some (n * (254 / 10000))
  else none

/-- `from_mm (n)` (source lines 158-159): millimeters to nanometers. -/
def from_mm (n : ℚ) : ℚ := n * 1000000

/-- The s-expression values handled by `SexpDump` (source lines 94-120):
bare symbols (`SexpSymbol`, written verbatim), Python strings (written
quoted and escaped), numbers (written via `str`), and nested lists.  The
numeric payload is `Option ℚ` because a `to_mm` result can be Python `None`
(rendered by `str` as `"None"`). -/
inductive Sexp where
  | sym (s : String)
  | str (s : String)
  | num (q : Option ℚ)
  | list (l : List Sexp)

/-- Whether a value is a nested list (`isinstance (sexp, list)`). -/
def Sexp.isList : Sexp → Bool
  | .list _ => true
  | _ => false

/-- One lowercase hexadecimal digit, as produced by Python's
`unicode_escape` codec. -/
def hexDigit (n : Nat) : Char :=
  if n < 10 then Char.ofNat (48 + n) else Char.ofNat (97 + (n - 10))

/-- Two lowercase hex digits of a codepoint below 0x100. -/
def hex2 (n : Nat) : String :=
  String.mk [hexDigit (n / 16 % 16), hexDigit (n % 16)]

/-- Four lowercase hex digits of a codepoint below 0x10000. -/
def hex4 (n : Nat) : String :=
  String.mk [hexDigit (n / 4096 % 16), hexDigit (n / 256 % 16),
    hexDigit (n / 16 % 16), hexDigit (n % 16)]

/-- Eight lowercase hex digits of a codepoint. -/
def hex8 (n : Nat) : String :=
  String.mk [hexDigit (n / 268435456 % 16), hexDigit (n / 16777216 % 16),
    hexDigit (n / 1048576 % 16), hexDigit (n / 65536 % 16),
    hexDigit (n / 4096 % 16), hexDigit (n / 256 % 16),
    hexDigit (n / 16 % 16), hexDigit (n % 16)]

/-- Escape of one character under Python's `unicode_escape` codec (used by
`SexpDump` on strings, source line 116): backslash and the control
characters tab/newline/carriage-return get two-character escapes, other
control and non-ASCII characters get `\xhh`/`\uhhhh`/`\Uhhhhhhhh` escapes,
and printable ASCII (including the double quote) passes through. -/
def escapeChar (c : Char) : String :=
  if c = '\\' then "\\\\"
  else if c = '\t' then "\\t"
  else if c = '\n' then "\\n"
  else if c = '\r' then "\\r"
  else if c.toNat < 32 ∨ 127 ≤ c.toNat then
    (if c.toNat < 256 then "\\x" ++ hex2 c.toNat
     else if c.toNat < 65536 then "\\u" ++ hex4 c.toNat
     else "\\U" ++ hex8 c.toNat)
  else String.singleton c

/-- `s.encode ("unicode_escape").decode ("ascii")` (source line 116). -/
def escapeString (s : String) : String :=
  s.data.foldr (fun c acc => escapeChar c ++ acc) ""

/-- Rendering of a numeric atom by Python `str` (source line 120); a `None`
that reached the tree prints as `"None"`. -/
def numRepr : Option ℚ → String
  | none => "None"
  | some q => toString q

mutual

/-- `SexpDump (sexp, f, indentlevel)` (source lines 94-120), returning the
string written to `f`: lists are parenthesized with a space before each
non-first element, and after a list closes at `indentlevel == 1` a newline
is written; strings are quoted and `unicode_escape`d; other atoms are
written via `str`. -/
def SexpDump : Sexp → Nat → String
  | Sexp.sym s, _ => s
  | Sexp.str s, _ => "\"" ++ escapeString s ++ "\""
  | Sexp.num q, _ => numRepr q
  | Sexp.list l, indentlevel =>
      "(" ++ SexpDumpItems l true (indentlevel + 1) ++ ")" ++
        (if indentlevel = 1 then "\n" else "")

/-- The element loop of `SexpDump` (source lines 101-108): each child is
dumped at the child indent level, preceded by a single space unless it is
the first child. -/
def SexpDumpItems : List Sexp → Bool → Nat → String
  | [], _, _ => ""
  | i :: rest, first, lvl =>
      (if first then "" else " ") ++ SexpDump i lvl ++ SexpDumpItems rest false lvl

end

mutual

/-- Indentation-free rendering of an s-expression: identical to `SexpDump`
except that the `indentlevel == 1` newline rule is absent. -/
def dumpFlat : Sexp → String
  | Sexp.sym s => s
  | Sexp.str s => "\"" ++ escapeString s ++ "\""
  | Sexp.num q => numRepr q
  | Sexp.list l => "(" ++ dumpFlatItems l true ++ ")"

/-- Element loop of `dumpFlat`. -/
def dumpFlatItems : List Sexp → Bool → String
  | [], _ => ""
  | i :: rest, first =>
      (if first then "" else " ") ++ dumpFlat i ++ dumpFlatItems rest false

end

/-- The `Point` class (source lines 162-174), as used by the trigonometric
arc computation; Python floats are modelled by real numbers here. -/
structure Point where
  x : ℝ
  y : ℝ

/-- `math.radians`: degrees to radians. -/
noncomputable def radians (d : ℝ) : ℝ := d * (Real.pi / 180)

/-- `kicad_arc_center (start, end, angle)` (source lines 176-187): the
center of a circular arc from the chord endpoints and the signed included
angle in degrees. -/
noncomputable def kicad_arc_center (start finish : Point) (angle : ℝ) : Point :=
  let dx := finish.x - start.x
  let dy := finish.y - start.y
  let mid : Point := ⟨start.x + dx / 2, start.y + dy / 2⟩
  let dlen := Real.sqrt (dx * dx + dy * dy)
  let dist := dlen / (2 * Real.tan (radians (angle / 2)))
  ⟨mid.x + dist * (dy / dlen), mid.y - dist * (dx / dlen)⟩

/-- One pad layer (class `Pad`, source lines 798-817): shape code, width,
two length extensions and corner radius, all parsed from floats. -/
structure Pad where
  Shape : ℚ
  Width : ℚ
  Len1 : ℚ
  Len2 : ℚ
  CornRad : ℚ
deriving DecidableEq

/-- A pin (class `Pin`, source lines 583-599): designator, drill diameter,
placement, rotation, up to three pad layers, and the footprint's unit
system.  The source also stores the parsed options object on the pin
(`self.opts`); here the options are passed explicitly to `Pin.kicad_sexp`
so that the pin itself is plain data. -/
structure Pin where
  ModName : String
  Name : String
  DrillDiam : ℚ
  Coords : ℚ × ℚ
  Angle : ℚ
  TopPad : Option Pad
  InnerPad : Option Pad
  BottomPad : Option Pad
  Units : String
deriving DecidableEq

/-- The options relevant to pad-shape resolution (constructed in `main`,
source lines 958-999): the rounding mode (`None`, `"all"` or `"allbut1"`)
and the two exception lists.  A compiled regular expression is modelled by
its anchored-match predicate on the module name. -/
structure Opts where
  roundedpads : Option String
  rpexceptions : List (String → Bool)
  rcexceptions : List (String → Bool)

/-- The exception scan of `Pin.kicad_sexp` (source lines 681-688): start
from `True` and clear the flag whenever a regex matches the module name. -/
def can_round (exceptions : List (String → Bool)) (modName : String) : Bool :=
  exceptions.foldl (fun acc regex => if regex modName then false else acc) true

/-- The surface-mount shape resolution cascade of `Pin.kicad_sexp` (source
lines 690-711): with no rounding mode the native shape code is mapped
directly; otherwise a center-pad exception forces `rect` for a pad at
`(0, 0)`, and the `all` / `allbut1` modes round to `oval` unless a general
exception (or, in `allbut1` mode, designator `"1"`) forces `rect`.  Any
other rounding-mode string hits `assert False`, modelled as `none`. -/
def smd_shape (shape : ℚ) (roundedpads : Option String)
    (can_round_pads can_round_center : Bool) (name : String) (coords : ℚ × ℚ) :
    Option String :=
  if roundedpads = none then
    some (if shape = PAD_ROUND ∨ shape = PAD_OCTAGON then "circle"
      else if shape = PAD_SQUARE ∨ shape = PAD_RECT then "rect"
      else if shape = PAD_RRECT then "roundrect"
      else if shape = PAD_OVAL then "oval"
      else "rect")
  else if can_round_center = false ∧ coords = (0, 0) then some "rect"
  else if roundedpads = some "all" then
    some (if can_round_pads then "oval" else "rect")
  else if roundedpads = some "allbut1" then
    some (if can_round_pads then (if name = "1" then "rect" else "oval") else "rect")
  else none

/-- The reference pad of a pin: the top pad when present, else the bottom
pad (the `if self.TopPad: ... else: ...` dispatch of source lines 666-675
and 771-774, whose two branches are identical up to the pad referenced). -/
def Pin.ref_pad (self : Pin) : Option Pad :=
  match self.TopPad with
  | some p => some p
  | none => self.BottomPad

/-- The short-circuiting test
`self.TopPad.Shape == PAD_NONE and self.BottomPad.Shape == PAD_NONE`
(source line 744): when the top pad's shape is not `none` the bottom pad is
never touched; when it is, a missing bottom pad raises (modelled `none`). -/
def Pin.both_pads_none (self : Pin) (tp : Pad) : Option Bool :=
  if tp.Shape = PAD_NONE then
    match self.BottomPad with
    | none => none
    | some bp => some (decide (bp.Shape = PAD_NONE))
  else some false

/-- `Pin.kicad_sexp` (source lines 657-766), returning the list of pad
records appended to the module tree.  `none` models a Python runtime error
(attribute access on an absent pad, negating a `None` coordinate, or the
`assert False` on an unknown rounding mode); a `None` conversion result
that is embedded in the tree without arithmetic on it is kept as a
`Sexp.num none` payload.  In the surface-mount branch the source computes
the size from the top pad when present and otherwise from the bottom pad,
with identical code for either reference pad. -/
def Pin.kicad_sexp (self : Pin) (opts : Opts) : Option (List Sexp) :=
  if self.DrillDiam = 0 then
    match self.ref_pad with
    | none => none
    | some ref_pad =>
      let sx0 := ref_pad.Width
      let sy0 := if ref_pad.Shape = PAD_ROUND ∨ ref_pad.Shape = PAD_SQUARE ∨
          ref_pad.Shape = PAD_OCTAGON then ref_pad.Width else ref_pad.Len1 + ref_pad.Len2
      let sx := if self.Angle = 90 ∨ self.Angle = 270 then sy0 else sx0
      let sy := if self.Angle = 90 ∨ self.Angle = 270 then sx0 else sy0
      match smd_shape ref_pad.Shape opts.roundedpads
          (can_round opts.rpexceptions self.ModName)
          (can_round opts.rcexceptions self.ModName) self.Name self.Coords with
      | none => none
      | some shape =>
        match to_mm self.Coords.2 self.Units with
        | none => none
        | some cy =>
          some [Sexp.list [Sexp.sym "pad", Sexp.str self.Name, Sexp.sym "smd",
            Sexp.sym shape,
            Sexp.list [Sexp.sym "at", Sexp.num (to_mm self.Coords.1 self.Units),
              Sexp.num (some (-cy))],
            Sexp.list [Sexp.sym "size", Sexp.num (to_mm sy self.Units),
              Sexp.num (to_mm sx self.Units)],
            Sexp.list [Sexp.sym "layers", Sexp.str "F.Cu", Sexp.str "F.Paste",
              Sexp.str "F.Mask"]]]
  else
    match self.TopPad with
    | none => none
    | some tp =>
      let sx0 := tp.Width
      let sy0 := if tp.Shape = PAD_ROUND ∨ tp.Shape = PAD_SQUARE ∨
          tp.Shape = PAD_OCTAGON then tp.Width else tp.Len1 + tp.Len2
      let sx := if self.Angle = 90 ∨ self.Angle = 270 then sy0 else sx0
      let sy := if self.Angle = 90 ∨ self.Angle = 270 then sx0
        else if sy0 = 0 then sx0 else sy0
      let shape :=
        if tp.Shape = PAD_ROUND ∨ tp.Shape = PAD_OCTAGON then "circle"
        else if tp.Shape = PAD_SQUARE ∨ tp.Shape = PAD_RECT then "rect"
        else if tp.Shape = PAD_RRECT then "roundrect"
        else if tp.Shape = PAD_OVAL then "oval"
        else "circle"
      match self.both_pads_none tp with
      | none => none
      | some bothNone =>
        match to_mm self.Coords.2 self.Units with
        | none => none
        | some cy =>
          if bothNone then
            some [Sexp.list [Sexp.sym "pad", Sexp.str self.Name,
              Sexp.sym "np_thru_hole", Sexp.sym shape,
              Sexp.list [Sexp.sym "at", Sexp.num (to_mm self.Coords.1 self.Units),
                Sexp.num (some (-cy))],
              Sexp.list [Sexp.sym "size", Sexp.num (to_mm self.DrillDiam self.Units),
                Sexp.num (to_mm self.DrillDiam self.Units)],
              Sexp.list [Sexp.sym "drill", Sexp.num (to_mm self.DrillDiam self.Units)],
              Sexp.list [Sexp.sym "layers", Sexp.str "*.Mask"]]]
          else
            some [Sexp.list [Sexp.sym "pad", Sexp.str self.Name,
              Sexp.sym "thru_hole", Sexp.sym shape,
              Sexp.list [Sexp.sym "at", Sexp.num (to_mm self.Coords.1 self.Units),
                Sexp.num (some (-cy))],
              Sexp.list [Sexp.sym "size", Sexp.num (to_mm sx self.Units),
                Sexp.num (to_mm sy self.Units)],
              Sexp.list [Sexp.sym "drill", Sexp.num (to_mm self.DrillDiam self.Units)],
              Sexp.list [Sexp.sym "layers", Sexp.str "*.Cu", Sexp.str "*.Mask"]]]

/-- `Pin.bounding_box` (source lines 768-796): pad extents (with the zero
length patched to the width), axis-swapped for 90/270 rotation, swapped
again for surface-mount pads, centered on the pin coordinates, converted to
millimeters. -/
def Pin.bounding_box (self : Pin) : Option (ℚ × ℚ × ℚ × ℚ) :=
  match self.ref_pad with
  | none => none
  | some pad =>
    let sx0 := pad.Width
    let sy0 := pad.Len1 + pad.Len2
    let sy1 := if sy0 = 0 then sx0 else sy0
    let sx2 := if self.Angle = 90 ∨ self.Angle = 270 then sy1 else sx0
    let sy2 := if self.Angle = 90 ∨ self.Angle = 270 then sx0 else sy1
    let sx := if self.DrillDiam = 0 then sy2 else sx2
    let sy := if self.DrillDiam = 0 then sx2 else sy2
    match to_mm (self.Coords.1 - sx / 2) self.Units,
      to_mm (self.Coords.1 + sx / 2) self.Units,
      to_mm (self.Coords.2 + sy / 2) self.Units,
      to_mm (self.Coords.2 - sy / 2) self.Units with
    | some l, some r, some t, some b => some (l, r, t, b)
    | _, _, _, _ => none

/-- A polyline (class `Polyline`, source lines 466-476), with the source's
constructor defaults. -/
structure Polyline where
  Points : List (ℚ × ℚ) := []
  Style : List ℚ := []
  Linewidth : Option ℚ := none
  Closed : Bool := false
  Layer : String := "F.SilkS"
  Units : String := "NM"
deriving DecidableEq

/-- `Polyline.bounding_box` (source lines 569-581): `min`/`max` over the
point coordinates, converted to millimeters.  `none` models the Python
error on an empty point list or on a `None` conversion flowing into the
surrounding arithmetic. -/
def Polyline.bounding_box (self : Polyline) : Option (ℚ × ℚ × ℚ × ℚ) :=
  match self.Points with
  | [] => none
  | p :: ps =>
    let left := (ps.map Prod.fst).foldl min p.1
    let right := (ps.map Prod.fst).foldl max p.1
    let top := (ps.map Prod.snd).foldl max p.2
    let bottom := (ps.map Prod.snd).foldl min p.2
    match to_mm left self.Units, to_mm right self.Units,
      to_mm top self.Units, to_mm bottom self.Units with
    | some l, some r, some t, some b => some (l, r, t, b)
    | _, _, _, _ => none

/-- A parsed input record: its key and the already-split numeric fields of
its value (the source splits the value string and converts each field with
`float`; a record whose fields are not numeric raises before reaching the
logic modelled here). -/
abbrev InputRecord := String × List ℚ

/-- The `next_corner` loop of `Polyline.create_from_freepcb` (source lines
499-516): consume records while the key is `next_corner`, collecting one
corner point and one segment style per record; a corner record without
exactly three numeric fields is a fatal error. -/
def read_corners : List InputRecord → Option (List (ℚ × ℚ) × List ℚ × List InputRecord)
  | [] => some ([], [], [])
  | (k, v) :: rest =>
    if k = "next_corner" then
      match v with
      | [x, y, s] =>
        match read_corners rest with
        | none => none
        | some (pts, sts, remaining) => some ((x, y) :: pts, s :: sts, remaining)
      | _ => none
    else some ([], [], (k, v) :: rest)

/-- `Polyline.create_from_freepcb` (source lines 478-522): the first record
must be `outline_polyline` with line width and first point; `next_corner`
records add points and per-segment styles; a final `close_polyline` record
is consumed, marks the polyline closed and appends the first point again
(without appending a style).  Returns the polyline and the unconsumed
records. -/
def Polyline.create_from_freepcb (rs : List InputRecord) (units : String) :
    Option (Polyline × List InputRecord) :=
  match rs with
  | [] => none
  | (k, v) :: rest =>
    if k = "outline_polyline" then
      match v with
      | [w, x, y] =>
        match read_corners rest with
        | none => none
        | some (corners, styles, remaining) =>
          match remaining with
          | [] =>
            some ({ Points := (x, y) :: corners, Style := styles,
                    Linewidth := some w, Closed := false, Units := units }, [])
          | (k2, v2) :: rest2 =>
            if k2 = "close_polyline" then
              some ({ Points := ((x, y) :: corners) ++ [(x, y)], Style := styles,
                      Linewidth := some w, Closed := true, Units := units }, rest2)
            else
              some ({ Points := (x, y) :: corners, Style := styles,
                      Linewidth := some w, Closed := false, Units := units },
                (k2, v2) :: rest2)
      | _ => none
    else none

/-- A graphic element of a footprint: the source keeps `Polyline` and `Pin`
objects mixed in one `Graphics` list and dispatches on `isinstance`. -/
inductive GraphicItem where
  | poly (p : Polyline)
  | pin (p : Pin)
deriving DecidableEq

/-- Dispatch of `bounding_box` over the two graphic element kinds. -/
def GraphicItem.bounding_box : GraphicItem → Option (ℚ × ℚ × ℚ × ℚ)
  | .poly p => p.bounding_box
  | .pin p => p.bounding_box

/-- A footprint (class `PCBmodule`), reduced to the fields the verified
operations touch: its name and its graphic elements. -/
structure PCBmodule where
  Name : String
  Graphics : List GraphicItem
deriving DecidableEq

/-- `PCBmodule.bounding_box` (source lines 438-447): the component-wise
`min`/`max` union of the sub-boxes of all graphic elements; `none` models
the Python error on an empty `Graphics` list or a failing sub-box. -/
def PCBmodule.bounding_box (self : PCBmodule) : Option (ℚ × ℚ × ℚ × ℚ) :=
  match self.Graphics.mapM GraphicItem.bounding_box with
  | none => none
  | some [] => none
  | some (bb :: bbs) =>
    some ((bbs.map (fun b => b.1)).foldl min bb.1,
          (bbs.map (fun b => b.2.1)).foldl max bb.2.1,
          (bbs.map (fun b => b.2.2.1)).foldl max bb.2.2.1,
          (bbs.map (fun b => b.2.2.2)).foldl min bb.2.2.2)

/-- `PCBmodule.add_courtyard (spacing)` (source lines 449-464): grow the
bounding box by the clearance on all four sides and append a five-point
rectangle polyline with four straight segments, line width `0.05` mm, on
layer `F.CrtYd`, in `MM` units.  The source leaves the polyline's `Closed`
flag at its default `False` even though the point list closes the loop. -/
def PCBmodule.add_courtyard (self : PCBmodule) (spacing : ℚ) : Option PCBmodule :=
  match self.bounding_box with
  | none => none
  | some (left0, right0, top0, bottom0) =>
    let left := left0 - spacing
    let right := right0 + spacing
    let top := top0 + spacing
    let bottom := bottom0 - spacing
    let cy : Polyline :=
      { Points := [(left, top), (right, top), (right, bottom), (left, bottom), (left, top)],
        Style := [0, 0, 0, 0], Linewidth := some (5 / 100), Closed := false,
        Layer := "F.CrtYd", Units := "MM" }
    some { self with Graphics := self.Graphics ++ [GraphicItem.poly cy] }

/-- A library (class `Library`, source lines 189-219): an ordered list of
footprints plus the options object. -/
structure Library where
  Modules : List PCBmodule
  opts : Opts

/-- `Library.__iadd__` (source lines 206-214): scan for any module of the
left library whose name also occurs in the right library and raise a
duplicate-name error for the first such module; otherwise extend the module
list with the other library's modules and take over its options. -/
def Library.iadd (self other : Library) : Except String Library :=
  match self.Modules.find? (fun i => other.Modules.any (fun j => i.Name == j.Name)) with
  | some i => Except.error ("Duplicate module name \"" ++ i.Name ++ "\"")
  | none => Except.ok { Modules := self.Modules ++ other.Modules, opts := other.opts }

/-- Extractor for the `size` element of a single emitted pad record (element
index 5 of the record list, in both the surface-mount and the through-hole
layouts). -/
def pad_size_field : Option (List Sexp) → Option Sexp
  | some [Sexp.list r] => r.get? 5
  | _ => none

/-- Concrete fixture: an options object with no rounding mode and empty
exception lists. -/
def sample_opts : Opts := { roundedpads := none, rpexceptions := [], rcexceptions := [] }

/-- Concrete fixture: a through-hole pin whose top and bottom pads are both
shape `none` (a non-plated mounting hole). -/
def sample_np_pin : Pin :=
  { ModName := "M", Name := "1", DrillDiam := 1, Coords := (0, 0), Angle := 0,
    TopPad := some ⟨0, 0, 0, 0, 0⟩, InnerPad := none, BottomPad := some ⟨0, 0, 0, 0, 0⟩,
    Units := "NM" }

/-- Concrete fixture: a through-hole pin with a rectangular top pad of width
5 and zero length extensions, rotation 0, in millimeter units. -/
def sample_th_rect_pin : Pin :=
  { ModName := "M", Name := "1", DrillDiam := 1, Coords := (0, 0), Angle := 0,
    TopPad := some ⟨3, 5, 0, 0, 0⟩, InnerPad := none, BottomPad := some ⟨3, 5, 0, 0, 0⟩,
    Units := "MM" }

/-- Concrete fixture: a surface-mount pin with a rectangular top pad (width
7, lengths 1+1) rotated 90 degrees, in millimeter units. -/
def sample_smd_pin : Pin :=
  { ModName := "M", Name := "2", DrillDiam := 0, Coords := (1, 2), Angle := 90,
    TopPad := some ⟨3, 7, 1, 1, 0⟩, InnerPad := none, BottomPad := none,
    Units := "MM" }

end Freepcb2Pretty

namespace Freepcb2Pretty

/-- Concrete fixture: a footprint with a single two-point silkscreen
polyline spanning `(-1, 1)` to `(1, -1)` in millimeter units, so its
bounding box is `(-1, 1, 1, -1)`. -/
def sample_module : PCBmodule :=
  { Name := "T", Graphics := [GraphicItem.poly
      { Points := [(-1, 1), (1, -1)], Style := [0], Linewidth := some 1,
        Closed := false, Layer := "F.SilkS", Units := "MM" }] }

/-- Concrete fixture: a one-footprint library named `R0805`. -/
def sample_lib_a : Library :=
  { Modules := [{ Name := "R0805", Graphics := [] }], opts := sample_opts }

/-- Concrete fixture: a one-footprint library named `C0603`. -/
def sample_lib_b : Library :=
  { Modules := [{ Name := "C0603", Graphics := [] }], opts := sample_opts }


/-- C9: converting a native-unit integer to millimeters and back reproduces
the original value; in the exact-arithmetic model the round trip
`from_mm (to_mm n "NM")` is exact (hence within the claimed `1e-9`
tolerance), `to_mm` divides nanometers by 1000000, passes millimeters
through, multiplies mils by 0.0254, and `from_mm` multiplies by 1000000. -/
theorem to_mm_from_mm_roundtrip :
    (∀ n : ℤ, to_mm (n : ℚ) "NM" = some ((n : ℚ) / 1000000) ∧
      from_mm ((n : ℚ) / 1000000) = (n : ℚ) ∧
      |from_mm ((n : ℚ) / 1000000) - (n : ℚ)| ≤ 1 / 1000000000) ∧
    (∀ q : ℚ, to_mm q "MM" = some q) ∧
    (∀ q : ℚ, to_mm q "MIL" = some (q * (254 / 10000))) ∧
    (∀ q : ℚ, from_mm q = q * 1000000) := by
  refine ⟨fun n => ⟨rfl, ?_, ?_⟩, fun q => rfl, fun q => rfl, fun q => rfl⟩
  · unfold from_mm; field_simp
  · unfold from_mm
    have h : (n : ℚ) / 1000000 * 1000000 - (n : ℚ) = 0 := by field_simp
    rw [h]
    norm_num

/-- C10: for every unit string other than `"NM"`, `"MM"`, `"MIL"`, the
conversion `to_mm` returns no numeric result (Python `None`, modelled as
`Option.none`) instead of raising an error. -/
theorem to_mm_unrecognized_units :
    ∀ u : String, u ≠ "NM" → u ≠ "MM" → u ≠ "MIL" →
      ∀ n : ℚ, to_mm n u = none := by
  intro u h1 h2 h3 n
  unfold to_mm
  rw [if_neg h1, if_neg h2, if_neg h3]

/-- Witness for C10 at the concrete unrecognized unit string `"IN"`. -/
theorem to_mm_unrecognized_units_witness : to_mm 1 "IN" = none :=
  to_mm_unrecognized_units "IN" (by decide) (by decide) (by decide) 1

/-- Hex digits are never a newline. -/
theorem hexDigit_ne_nl : ∀ n : Nat, n < 16 → hexDigit n ≠ '\n' := by decide

/-- Hex digits of a nibble are never a newline. -/
theorem hexDigit_mod_ne_nl (n : Nat) : hexDigit (n % 16) ≠ '\n' :=
  hexDigit_ne_nl _ (Nat.mod_lt _ (by norm_num))

/-- No newline occurs in a two-digit hex escape body. -/
theorem nl_not_mem_hex2 (n : Nat) : '\n' ∉ (hex2 n).data := by
  intro h
  have h' : '\n' ∈ [hexDigit (n / 16 % 16), hexDigit (n % 16)] := h
  simp only [List.mem_cons, List.not_mem_nil, or_false] at h'
  rcases h' with h' | h' <;> exact hexDigit_mod_ne_nl _ h'.symm

/-- No newline occurs in a four-digit hex escape body. -/
theorem nl_not_mem_hex4 (n : Nat) : '\n' ∉ (hex4 n).data := by
  intro h
  have h' : '\n' ∈ [hexDigit (n / 4096 % 16), hexDigit (n / 256 % 16),
      hexDigit (n / 16 % 16), hexDigit (n % 16)] := h
  simp only [List.mem_cons, List.not_mem_nil, or_false] at h'
  rcases h' with h' | h' | h' | h' <;> exact hexDigit_mod_ne_nl _ h'.symm

/-- No newline occurs in an eight-digit hex escape body. -/
theorem nl_not_mem_hex8 (n : Nat) : '\n' ∉ (hex8 n).data := by
  intro h
  have h' : '\n' ∈ [hexDigit (n / 268435456 % 16), hexDigit (n / 16777216 % 16),
      hexDigit (n / 1048576 % 16), hexDigit (n / 65536 % 16),
      hexDigit (n / 4096 % 16), hexDigit (n / 256 % 16),
      hexDigit (n / 16 % 16), hexDigit (n % 16)] := h
  simp only [List.mem_cons, List.not_mem_nil, or_false] at h'
  rcases h' with h' | h' | h' | h' | h' | h' | h' | h' <;>
    exact hexDigit_mod_ne_nl _ h'.symm

/-- The escape of a character never contains a raw newline. -/
theorem nl_not_mem_escapeChar (c : Char) : '\n' ∉ (escapeChar c).data := by
  unfold escapeChar
  split
  · decide
  · split
    · decide
    · split
      · decide
      · split
        · decide
        · split
          · split
            · intro h
              rw [String.data_append] at h
              rcases List.mem_append.mp h with h | h
              · revert h; decide
              · exact nl_not_mem_hex2 _ h
            · split
              · intro h
                rw [String.data_append] at h
                rcases List.mem_append.mp h with h | h
                · revert h; decide
                · exact nl_not_mem_hex4 _ h
              · intro h
                rw [String.data_append] at h
                rcases List.mem_append.mp h with h | h
                · revert h; decide
                · exact nl_not_mem_hex8 _ h
          · rename_i h1 h2 h3 h4 h5
            intro h
            have h' : '\n' ∈ [c] := h
            simp only [List.mem_cons, List.not_mem_nil, or_false] at h'
            exact h3 h'.symm

/-- The `unicode_escape` of a whole string never contains a raw newline. -/
theorem nl_not_mem_escapeString (s : String) : '\n' ∉ (escapeString s).data := by
  unfold escapeString
  induction s.data with
  | nil => decide
  | cons c cs ih =>
    intro h
    simp only [List.foldr_cons] at h
    rw [String.data_append] at h
    rcases List.mem_append.mp h with h | h
    · exact nl_not_mem_escapeChar c h
    · exact ih h

mutual

/-- At indent level 2 or deeper `SexpDump` writes no newlines: it agrees
with the indentation-free rendering. -/
theorem SexpDump_flat_two_le : ∀ (x : Sexp) (d : Nat), 2 ≤ d → SexpDump x d = dumpFlat x
  | Sexp.sym _, _, _ => rfl
  | Sexp.str _, _, _ => rfl
  | Sexp.num _, _, _ => rfl
  | Sexp.list l, d, hd => by
      rw [SexpDump, dumpFlat, SexpDumpItems_flat_two_le l true (d + 1) (by omega),
        if_neg (by omega)]
      apply String.ext
      simp [String.data_append]

/-- Companion to `SexpDump_flat_two_le` for the element loop. -/
theorem SexpDumpItems_flat_two_le :
    ∀ (l : List Sexp) (first : Bool) (d : Nat), 2 ≤ d →
      SexpDumpItems l first d = dumpFlatItems l first
  | [], _, _, _ => rfl
  | i :: rest, first, d, hd => by
      rw [SexpDumpItems, dumpFlatItems, SexpDump_flat_two_le i d hd,
        SexpDumpItems_flat_two_le rest false d hd]

end

/-- At indent level 1 (a direct child of the top-level list) `SexpDump`
writes the indentation-free rendering followed by a newline exactly when
the child is itself a list. -/
theorem SexpDump_one (x : Sexp) :
    SexpDump x 1 = dumpFlat x ++ (if x.isList then "\n" else "") := by
  cases x with
  | sym s => apply String.ext; simp [SexpDump, dumpFlat, Sexp.isList, String.data_append]
  | str s => apply String.ext; simp [SexpDump, dumpFlat, Sexp.isList, String.data_append]
  | num q => apply String.ext; simp [SexpDump, dumpFlat, Sexp.isList, String.data_append]
  | list l =>
      rw [SexpDump, dumpFlat, SexpDumpItems_flat_two_le l true 2 (by omega)]
      simp [Sexp.isList]

/-- The top-level dump is the parenthesized element run with no trailing
newline: the output ends with the closing parenthesis. -/
theorem SexpDump_zero (l : List Sexp) :
    SexpDump (Sexp.list l) 0 = "(" ++ SexpDumpItems l true 1 ++ ")" := by
  rw [SexpDump, if_neg (by omega)]
  apply String.ext
  simp [String.data_append]

/-- C7 counterexample: dumping the tree `((a) b)` at top level yields
`"((a)\n b)"` — a newline is written after the depth-1 sublist `(a)`,
inside the top-level parentheses and between siblings, and no newline
follows the closing parenthesis — not the claimed `"((a) b)\n"`. -/
theorem SexpDump_claim_counterexample :
    SexpDump (Sexp.list [Sexp.list [Sexp.sym "a"], Sexp.sym "b"]) 0 = "((a)\n b)" ∧
    "((a)\n b)" ≠ "((a) b)" ++ "\n" := ⟨rfl, by decide⟩

/-- C7 (amended): the serializer writes a fully parenthesized expression in
which each non-first sibling is preceded by exactly one space, bare symbols
are written unquoted, strings are written double-quoted with backslash
escapes that never contain a raw newline, no line break is written inside
lists at depth 2 or deeper, a newline is written after each list nested at
depth 1 (so line breaks do appear between the top-level list's elements),
and no trailing newline follows the top-level expression (its output ends
with the closing parenthesis). -/
theorem SexpDump_amended_spec :
    (∀ (s : String) (d : Nat), SexpDump (Sexp.sym s) d = s) ∧
    (∀ (s : String) (d : Nat), SexpDump (Sexp.str s) d = "\"" ++ escapeString s ++ "\"") ∧
    (∀ s : String, '\n' ∉ (escapeString s).data) ∧
    (∀ (x : Sexp) (d : Nat), 2 ≤ d → SexpDump x d = dumpFlat x) ∧
    (∀ x : Sexp, SexpDump x 1 = dumpFlat x ++ (if x.isList then "\n" else "")) ∧
    (∀ l : List Sexp, SexpDump (Sexp.list l) 0 = "(" ++ SexpDumpItems l true 1 ++ ")") ∧
    (∀ (i : Sexp) (rest : List Sexp) (d : Nat),
      SexpDumpItems (i :: rest) false d = " " ++ SexpDump i d ++ SexpDumpItems rest false d) :=
  ⟨fun _ _ => rfl, fun _ _ => rfl, nl_not_mem_escapeString, SexpDump_flat_two_le,
    SexpDump_one, SexpDump_zero, fun _ _ _ => rfl⟩

/-- Witness for the amended C7 at a concrete symbol and depth. -/
theorem SexpDump_amended_spec_witness :
    SexpDump (Sexp.sym "a") 2 = dumpFlat (Sexp.sym "a") :=
  SexpDump_amended_spec.2.2.2.1 (Sexp.sym "a") 2 (by norm_num)

/-- The displacement of the computed arc center from the chord midpoint is
orthogonal to the chord and has squared length `(d / (2·tan(θ/2)))²`. -/
theorem kicad_arc_center_displacement (S E : Point) (θ : ℝ) (hne : S ≠ E) :
    ((kicad_arc_center S E θ).x - (S.x + (E.x - S.x) / 2)) * (E.x - S.x) +
      ((kicad_arc_center S E θ).y - (S.y + (E.y - S.y) / 2)) * (E.y - S.y) = 0 ∧
    ((kicad_arc_center S E θ).x - (S.x + (E.x - S.x) / 2)) ^ 2 +
      ((kicad_arc_center S E θ).y - (S.y + (E.y - S.y) / 2)) ^ 2 =
        (Real.sqrt ((E.x - S.x) * (E.x - S.x) + (E.y - S.y) * (E.y - S.y)) /
          (2 * Real.tan (radians (θ / 2)))) ^ 2 := by
  obtain ⟨sx, sy⟩ := S
  obtain ⟨ex, ey⟩ := E
  simp only [ne_eq, Point.mk.injEq, not_and] at hne
  have hpos : 0 < (ex - sx) * (ex - sx) + (ey - sy) * (ey - sy) := by
    rcases eq_or_lt_of_le
        (add_nonneg (mul_self_nonneg (ex - sx)) (mul_self_nonneg (ey - sy))) with h0 | h
    · exfalso
      have hx2 : (ex - sx) * (ex - sx) = 0 := by
        nlinarith [mul_self_nonneg (ex - sx), mul_self_nonneg (ey - sy)]
      have hy2 : (ey - sy) * (ey - sy) = 0 := by
        nlinarith [mul_self_nonneg (ex - sx), mul_self_nonneg (ey - sy)]
      have hx : ex - sx = 0 := mul_self_eq_zero.mp hx2
      have hy : ey - sy = 0 := mul_self_eq_zero.mp hy2
      exact hne (by linarith) (by linarith)
    · exact h
  have hsq : Real.sqrt ((ex - sx) * (ex - sx) + (ey - sy) * (ey - sy)) ^ 2 =
      (ex - sx) * (ex - sx) + (ey - sy) * (ey - sy) := Real.sq_sqrt hpos.le
  constructor
  · simp only [kicad_arc_center]
    ring
  · simp only [kicad_arc_center]
    have expand :
        (sx + (ex - sx) / 2 +
            Real.sqrt ((ex - sx) * (ex - sx) + (ey - sy) * (ey - sy)) /
              (2 * Real.tan (radians (θ / 2))) *
              ((ey - sy) / Real.sqrt ((ex - sx) * (ex - sx) + (ey - sy) * (ey - sy))) -
          (sx + (ex - sx) / 2)) ^ 2 +
        (sy + (ey - sy) / 2 -
            Real.sqrt ((ex - sx) * (ex - sx) + (ey - sy) * (ey - sy)) /
              (2 * Real.tan (radians (θ / 2))) *
              ((ex - sx) / Real.sqrt ((ex - sx) * (ex - sx) + (ey - sy) * (ey - sy))) -
          (sy + (ey - sy) / 2)) ^ 2 =
        (Real.sqrt ((ex - sx) * (ex - sx) + (ey - sy) * (ey - sy)) /
            (2 * Real.tan (radians (θ / 2)))) ^ 2 *
          (((ex - sx) * (ex - sx) + (ey - sy) * (ey - sy)) /
            Real.sqrt ((ex - sx) * (ex - sx) + (ey - sy) * (ey - sy)) ^ 2) := by
      ring
    rw [expand, hsq, div_self hpos.ne', mul_one]

/-- C2: for distinct endpoints and a nonzero included angle (degrees), the
arc-center function returns the chord midpoint `M` displaced along the unit
normal of `SE` by the distance `d / (2·tan(θ/2))`: the displacement `C - M`
is orthogonal to `E - S` and its squared length is `(d / (2·tan(θ/2)))²`;
in particular for start `(0,0)`, end `(10,0)`, angle `90°` the computed
center is `(5, -5)`, which lies at distance `5√2` from both endpoints. -/
theorem kicad_arc_center_spec :
    (∀ (S E : Point) (θ : ℝ), S ≠ E → θ ≠ 0 →
      ((kicad_arc_center S E θ).x - (S.x + (E.x - S.x) / 2)) * (E.x - S.x) +
        ((kicad_arc_center S E θ).y - (S.y + (E.y - S.y) / 2)) * (E.y - S.y) = 0 ∧
      ((kicad_arc_center S E θ).x - (S.x + (E.x - S.x) / 2)) ^ 2 +
        ((kicad_arc_center S E θ).y - (S.y + (E.y - S.y) / 2)) ^ 2 =
          (Real.sqrt ((E.x - S.x) * (E.x - S.x) + (E.y - S.y) * (E.y - S.y)) /
            (2 * Real.tan (radians (θ / 2)))) ^ 2) ∧
    kicad_arc_center ⟨0, 0⟩ ⟨10, 0⟩ 90 = ⟨5, -5⟩ ∧
    Real.sqrt ((5 - 0) ^ 2 + (-5 - 0) ^ 2) = 5 * Real.sqrt 2 ∧
    Real.sqrt ((5 - 10) ^ 2 + (-5 - 0) ^ 2) = 5 * Real.sqrt 2 := by
  refine ⟨fun S E θ hne _ => kicad_arc_center_displacement S E θ hne, ?_, ?_, ?_⟩
  · have hsqrt : Real.sqrt ((10 - 0) * (10 - 0) + (0 - 0) * (0 - 0)) = 10 := by
      rw [show ((10:ℝ) - 0) * (10 - 0) + (0 - 0) * (0 - 0) = 10 ^ 2 by norm_num]
      exact Real.sqrt_sq (by norm_num)
    have hrad : radians ((90:ℝ) / 2) = Real.pi / 4 := by
      unfold radians; ring
    have htan : Real.tan (radians ((90:ℝ) / 2)) = 1 := by
      rw [hrad]; exact Real.tan_pi_div_four
    simp only [kicad_arc_center, htan, hsqrt]
    rw [Point.mk.injEq]
    constructor <;> norm_num
  · rw [show ((5:ℝ) - 0) ^ 2 + (-5 - 0) ^ 2 = 25 * 2 by norm_num,
      Real.sqrt_mul (by norm_num), show (25:ℝ) = 5 ^ 2 by norm_num,
      Real.sqrt_sq (by norm_num)]
  · rw [show ((5:ℝ) - 10) ^ 2 + (-5 - 0) ^ 2 = 25 * 2 by norm_num,
      Real.sqrt_mul (by norm_num), show (25:ℝ) = 5 ^ 2 by norm_num,
      Real.sqrt_sq (by norm_num)]

/-- Witness for C2 at start `(0,0)`, end `(10,0)`, included angle `90`. -/
theorem kicad_arc_center_spec_witness :
    ((kicad_arc_center ⟨0, 0⟩ ⟨10, 0⟩ 90).x -
        ((Point.mk 0 0).x + ((Point.mk 10 0).x - (Point.mk 0 0).x) / 2)) *
        ((Point.mk 10 0).x - (Point.mk 0 0).x) +
      ((kicad_arc_center ⟨0, 0⟩ ⟨10, 0⟩ 90).y -
        ((Point.mk 0 0).y + ((Point.mk 10 0).y - (Point.mk 0 0).y) / 2)) *
        ((Point.mk 10 0).y - (Point.mk 0 0).y) = 0 ∧
    ((kicad_arc_center ⟨0, 0⟩ ⟨10, 0⟩ 90).x -
        ((Point.mk 0 0).x + ((Point.mk 10 0).x - (Point.mk 0 0).x) / 2)) ^ 2 +
      ((kicad_arc_center ⟨0, 0⟩ ⟨10, 0⟩ 90).y -
        ((Point.mk 0 0).y + ((Point.mk 10 0).y - (Point.mk 0 0).y) / 2)) ^ 2 =
        (Real.sqrt (((Point.mk 10 0).x - (Point.mk 0 0).x) *
            ((Point.mk 10 0).x - (Point.mk 0 0).x) +
            ((Point.mk 10 0).y - (Point.mk 0 0).y) *
            ((Point.mk 10 0).y - (Point.mk 0 0).y)) /
          (2 * Real.tan (radians ((90:ℝ) / 2)))) ^ 2 :=
  kicad_arc_center_spec.1 ⟨0, 0⟩ ⟨10, 0⟩ 90
    (by intro h; rw [Point.mk.injEq] at h; exact absurd h.1 (by norm_num))
    (by norm_num)


/-- C1: for every surface-mount pin, the resolved output pad shape keyword
is a pure function of the reference pad's native shape code (top pad if
present, else bottom), the rounding mode, the exception sets matched
against the module name, the pin designator, and the pin coordinates: with
no rounding mode, native round/octagon yields `circle`, square/rect yields
`rect`, round-rect yields `roundrect`, oval yields `oval`, any other code
yields `rect`; with mode `all` (resp. `all-but-1`) and no matching general
exception — and no center-pad exception applying at coordinates `(0,0)` —
the shape is `oval` (resp. `rect` for designator `"1"` and `oval`
otherwise); a matching general exception forces `rect` under either
rounding mode; a matching center-pad exception forces `rect` exactly when
the coordinates are `(0, 0)` and has no effect otherwise; and the keyword
emitted in the pad record is the resolved one. -/
theorem smd_shape_resolution :
    (∀ (sh : ℚ) (crp crc : Bool) (n : String) (c : ℚ × ℚ),
      ((sh = PAD_ROUND ∨ sh = PAD_OCTAGON) → smd_shape sh none crp crc n c = some "circle") ∧
      ((sh = PAD_SQUARE ∨ sh = PAD_RECT) → smd_shape sh none crp crc n c = some "rect") ∧
      (sh = PAD_RRECT → smd_shape sh none crp crc n c = some "roundrect") ∧
      (sh = PAD_OVAL → smd_shape sh none crp crc n c = some "oval") ∧
      (sh ≠ PAD_ROUND → sh ≠ PAD_OCTAGON → sh ≠ PAD_SQUARE → sh ≠ PAD_RECT →
        sh ≠ PAD_RRECT → sh ≠ PAD_OVAL → smd_shape sh none crp crc n c = some "rect")) ∧
    (∀ (sh : ℚ) (crc : Bool) (n : String) (c : ℚ × ℚ),
      ¬(crc = false ∧ c = (0, 0)) →
      smd_shape sh (some "all") true crc n c = some "oval") ∧
    (∀ (sh : ℚ) (crc : Bool) (n : String) (c : ℚ × ℚ),
      ¬(crc = false ∧ c = (0, 0)) →
      smd_shape sh (some "allbut1") true crc n c =
        some (if n = "1" then "rect" else "oval")) ∧
    (∀ (sh : ℚ) (m : Option String) (crc : Bool) (n : String) (c : ℚ × ℚ),
      m = some "all" ∨ m = some "allbut1" →
      smd_shape sh m false crc n c = some "rect") ∧
    (∀ (sh : ℚ) (m : Option String) (crp : Bool) (n : String),
      m = some "all" ∨ m = some "allbut1" →
      smd_shape sh m crp false n (0, 0) = some "rect") ∧
    (∀ (sh : ℚ) (m : Option String) (crp : Bool) (n : String) (c : ℚ × ℚ),
      c ≠ (0, 0) →
      smd_shape sh m crp false n c = smd_shape sh m crp true n c) ∧
    (∀ (pin : Pin) (opts : Opts) (tp : Pad) (cy : ℚ) (s : String),
      pin.DrillDiam = 0 → pin.ref_pad = some tp →
      to_mm pin.Coords.2 pin.Units = some cy →
      smd_shape tp.Shape opts.roundedpads (can_round opts.rpexceptions pin.ModName)
        (can_round opts.rcexceptions pin.ModName) pin.Name pin.Coords = some s →
      ∃ a b c', pin.kicad_sexp opts = some [Sexp.list [Sexp.sym "pad", Sexp.str pin.Name,
        Sexp.sym "smd", Sexp.sym s, a, b, c']]) := by
  refine ⟨fun sh crp crc n c => ⟨?_, ?_, ?_, ?_, ?_⟩, ?_, ?_, ?_, ?_, ?_, ?_⟩
  · intro h
    rcases h with rfl | rfl <;> norm_num [smd_shape, PAD_ROUND, PAD_OCTAGON]
  · intro h
    rcases h with rfl | rfl <;>
      norm_num [smd_shape, PAD_SQUARE, PAD_RECT, PAD_ROUND, PAD_OCTAGON]
  · rintro rfl
    norm_num [smd_shape, PAD_RRECT, PAD_ROUND, PAD_OCTAGON, PAD_SQUARE, PAD_RECT]
  · rintro rfl
    norm_num [smd_shape, PAD_OVAL, PAD_ROUND, PAD_OCTAGON, PAD_SQUARE, PAD_RECT, PAD_RRECT]
  · intro h1 h2 h3 h4 h5 h6
    simp [smd_shape, h1, h2, h3, h4, h5, h6]
  · intro sh crc n c h
    simp only [smd_shape]
    rw [if_neg (by simp), if_neg h]
    simp
  · intro sh crc n c h
    simp only [smd_shape]
    rw [if_neg (by simp), if_neg h]
    simp
  · intro sh m crc n c hm
    rcases hm with rfl | rfl <;>
    · simp only [smd_shape]
      rw [if_neg (by simp)]
      by_cases hc : c = (0, 0) <;> cases crc <;> simp [hc]
  · intro sh m crp n hm
    rcases hm with rfl | rfl <;> simp [smd_shape]
  · intro sh m crp n c h
    unfold smd_shape
    rw [if_neg (show ¬(false = false ∧ c = (0, 0)) from fun hc => h hc.2),
      if_neg (show ¬(true = false ∧ c = (0, 0)) by simp)]
  · intro pin opts tp cy s hd htp hcy hs
    simp only [Pin.kicad_sexp, hd, htp, hs, hcy, if_true, eq_self_iff_true]
    exact ⟨_, _, _, rfl⟩

/-- Witness for C1: rounding mode `all`, no exception matches, square pad off
center resolves to `oval`. -/
theorem smd_shape_resolution_witness :
    smd_shape PAD_SQUARE (some "all") true true "5" (1, 0) = some "oval" :=
  smd_shape_resolution.2.1 PAD_SQUARE true "5" (1, 0) (by norm_num)

/-- C3: for every through-hole pin (nonzero drill diameter), the emitted pad
records are independent of the rounding mode and exception sets, the shape
keyword is the direct native-shape mapping of the top pad (round/octagon →
`circle`, square/rect → `rect`, round-rect → `roundrect`, oval → `oval`,
anything else → `circle`), and when the top and bottom pads are both shape
`none` the emitted record has type `np_thru_hole` with both size components
equal to the drill diameter converted to millimeters (on the mask layers
only), instead of a copper `thru_hole` pad. -/
theorem pth_pad_spec :
    (∀ (pin : Pin) (o o' : Opts), pin.DrillDiam ≠ 0 → pin.kicad_sexp o = pin.kicad_sexp o') ∧
    (∀ (pin : Pin) (opts : Opts) (tp : Pad) (b : Bool) (cy : ℚ),
      pin.DrillDiam ≠ 0 → pin.TopPad = some tp →
      pin.both_pads_none tp = some b →
      to_mm pin.Coords.2 pin.Units = some cy →
      ∃ t a sz dr ly, pin.kicad_sexp opts = some [Sexp.list [Sexp.sym "pad",
        Sexp.str pin.Name, Sexp.sym t,
        Sexp.sym (if tp.Shape = PAD_ROUND ∨ tp.Shape = PAD_OCTAGON then "circle"
          else if tp.Shape = PAD_SQUARE ∨ tp.Shape = PAD_RECT then "rect"
          else if tp.Shape = PAD_RRECT then "roundrect"
          else if tp.Shape = PAD_OVAL then "oval" else "circle"), a, sz, dr, ly]]) ∧
    (∀ (pin : Pin) (opts : Opts) (tp bp : Pad) (cy : ℚ),
      pin.DrillDiam ≠ 0 → pin.TopPad = some tp → pin.BottomPad = some bp →
      tp.Shape = PAD_NONE → bp.Shape = PAD_NONE →
      to_mm pin.Coords.2 pin.Units = some cy →
      pin.kicad_sexp opts = some [Sexp.list [Sexp.sym "pad", Sexp.str pin.Name,
        Sexp.sym "np_thru_hole", Sexp.sym "circle",
        Sexp.list [Sexp.sym "at", Sexp.num (to_mm pin.Coords.1 pin.Units),
          Sexp.num (some (-cy))],
        Sexp.list [Sexp.sym "size", Sexp.num (to_mm pin.DrillDiam pin.Units),
          Sexp.num (to_mm pin.DrillDiam pin.Units)],
        Sexp.list [Sexp.sym "drill", Sexp.num (to_mm pin.DrillDiam pin.Units)],
        Sexp.list [Sexp.sym "layers", Sexp.str "*.Mask"]]]) := by
  refine ⟨?_, ?_, ?_⟩
  · intro pin o o' hd
    unfold Pin.kicad_sexp
    rw [if_neg hd, if_neg hd]
  · intro pin opts tp b cy hd htp hb hcy
    simp only [Pin.kicad_sexp, if_neg hd, htp, hb, hcy]
    cases b
    · exact ⟨"thru_hole", _, _, _, _, rfl⟩
    · exact ⟨"np_thru_hole", _, _, _, _, rfl⟩
  · intro pin opts tp bp cy hd htp hbp hts hbs hcy
    have hb : pin.both_pads_none tp = some true := by
      simp [Pin.both_pads_none, hts, hbp, hbs]
    simp only [Pin.kicad_sexp, if_neg hd, htp, hb, hcy, hts]
    norm_num [PAD_NONE, PAD_ROUND, PAD_OCTAGON, PAD_SQUARE, PAD_RECT, PAD_RRECT, PAD_OVAL]

/-- Witness for C3: a non-plated hole (both pads shape `none`) with drill
diameter 1 in nanometer units. -/
theorem pth_pad_spec_witness :
    Pin.kicad_sexp sample_np_pin sample_opts = some [Sexp.list [Sexp.sym "pad",
      Sexp.str "1", Sexp.sym "np_thru_hole", Sexp.sym "circle",
      Sexp.list [Sexp.sym "at", Sexp.num (to_mm 0 "NM"), Sexp.num (some (-0))],
      Sexp.list [Sexp.sym "size", Sexp.num (to_mm 1 "NM"), Sexp.num (to_mm 1 "NM")],
      Sexp.list [Sexp.sym "drill", Sexp.num (to_mm 1 "NM")],
      Sexp.list [Sexp.sym "layers", Sexp.str "*.Mask"]]] :=
  pth_pad_spec.2.2 sample_np_pin sample_opts ⟨0, 0, 0, 0, 0⟩ ⟨0, 0, 0, 0, 0⟩ 0
    (by norm_num [sample_np_pin]) rfl rfl rfl rfl (by norm_num [sample_np_pin, to_mm])

/-- C4 counterexample: a through-hole pin with a rectangular top pad of
width 5 and zero length extensions at rotation 0 is emitted with size
`(5, 5)` — the zero long extent is replaced by the width — not the
unswapped extents `(5, 0)` (nor `(0, 5)`) that the claim predicts. -/
theorem pad_size_claim_counterexample :
    pad_size_field (Pin.kicad_sexp sample_th_rect_pin sample_opts) =
      some (Sexp.list [Sexp.sym "size", Sexp.num (some 5), Sexp.num (some 5)]) ∧
    Sexp.list [Sexp.sym "size", Sexp.num (some 5), Sexp.num (some 5)] ≠
      Sexp.list [Sexp.sym "size", Sexp.num (some 5), Sexp.num (some 0)] ∧
    Sexp.list [Sexp.sym "size", Sexp.num (some 5), Sexp.num (some 5)] ≠
      Sexp.list [Sexp.sym "size", Sexp.num (some 0), Sexp.num (some 5)] := by
  refine ⟨?_, by norm_num, by norm_num⟩
  norm_num [sample_th_rect_pin, sample_opts, Pin.kicad_sexp, Pin.both_pads_none,
    pad_size_field, to_mm, PAD_NONE, PAD_ROUND, PAD_SQUARE, PAD_RECT, PAD_RRECT,
    PAD_OVAL, PAD_OCTAGON]
  decide

/-- C4 (amended): the two dimensions of the emitted size field are the
pad's extents (width and len1+len2, the latter replaced by the width for
round, square or octagon shapes), swapped exactly when the rotation is
90 or 270 degrees — except that a through-hole pin at rotation 0/180 whose
long extent is zero gets the width in its place; moreover the surface-mount
branch writes the pair in the opposite component order from the
through-hole branch, and non-plated holes (excluded here via the
`both_pads_none = some false` hypothesis) use the drill diameter
instead. -/
theorem pad_size_swap_amended :
    (∀ (pin : Pin) (opts : Opts) (tp : Pad) (cy : ℚ) (s : String),
      pin.DrillDiam = 0 → pin.ref_pad = some tp →
      to_mm pin.Coords.2 pin.Units = some cy →
      smd_shape tp.Shape opts.roundedpads (can_round opts.rpexceptions pin.ModName)
        (can_round opts.rcexceptions pin.ModName) pin.Name pin.Coords = some s →
      pad_size_field (pin.kicad_sexp opts) =
        some (Sexp.list [Sexp.sym "size",
          Sexp.num (to_mm (if pin.Angle = 90 ∨ pin.Angle = 270 then tp.Width
            else if tp.Shape = PAD_ROUND ∨ tp.Shape = PAD_SQUARE ∨ tp.Shape = PAD_OCTAGON
              then tp.Width else tp.Len1 + tp.Len2) pin.Units),
          Sexp.num (to_mm (if pin.Angle = 90 ∨ pin.Angle = 270
            then (if tp.Shape = PAD_ROUND ∨ tp.Shape = PAD_SQUARE ∨ tp.Shape = PAD_OCTAGON
              then tp.Width else tp.Len1 + tp.Len2)
            else tp.Width) pin.Units)])) ∧
    (∀ (pin : Pin) (opts : Opts) (tp : Pad) (cy : ℚ),
      pin.DrillDiam ≠ 0 → pin.TopPad = some tp →
      pin.both_pads_none tp = some false →
      to_mm pin.Coords.2 pin.Units = some cy →
      pad_size_field (pin.kicad_sexp opts) =
        some (Sexp.list [Sexp.sym "size",
          Sexp.num (to_mm (if pin.Angle = 90 ∨ pin.Angle = 270
            then (if tp.Shape = PAD_ROUND ∨ tp.Shape = PAD_SQUARE ∨ tp.Shape = PAD_OCTAGON
              then tp.Width else tp.Len1 + tp.Len2)
            else tp.Width) pin.Units),
          Sexp.num (to_mm (if pin.Angle = 90 ∨ pin.Angle = 270 then tp.Width
            else if (if tp.Shape = PAD_ROUND ∨ tp.Shape = PAD_SQUARE ∨ tp.Shape = PAD_OCTAGON
                then tp.Width else tp.Len1 + tp.Len2) = 0 then tp.Width
              else if tp.Shape = PAD_ROUND ∨ tp.Shape = PAD_SQUARE ∨ tp.Shape = PAD_OCTAGON
                then tp.Width else tp.Len1 + tp.Len2) pin.Units)])) := by
  constructor
  · intro pin opts tp cy s hd htp hcy hs
    simp only [Pin.kicad_sexp, hd, htp, hs, hcy, if_true, eq_self_iff_true]
    rfl
  · intro pin opts tp cy hd htp hb hcy
    simp only [Pin.kicad_sexp, if_neg hd, htp, hb, hcy]
    rfl

/-- Witness for the amended C4: a surface-mount rectangular pad (width 7,
lengths 1+1) rotated 90 degrees is emitted with size `(7, 2)`. -/
theorem pad_size_swap_amended_witness :
    pad_size_field (Pin.kicad_sexp sample_smd_pin sample_opts) =
      some (Sexp.list [Sexp.sym "size", Sexp.num (some 7), Sexp.num (some 2)]) := by
  have h := pad_size_swap_amended.1 sample_smd_pin sample_opts ⟨3, 7, 1, 1, 0⟩ 2 "rect"
    rfl rfl
    (by norm_num [sample_smd_pin, to_mm]; decide)
    (by norm_num [sample_smd_pin, sample_opts, smd_shape, can_round,
      PAD_ROUND, PAD_SQUARE, PAD_RECT, PAD_OCTAGON, PAD_RRECT, PAD_OVAL])
  rw [h]
  norm_num [sample_smd_pin, to_mm, PAD_ROUND, PAD_SQUARE, PAD_OCTAGON]
  decide

/-- C5: for every footprint whose bounding box is `(l, r, t, b)` in
millimeters and every clearance `c`, the courtyard pass appends exactly one
five-point closed-loop polyline with consecutive points `(l-c, t+c)`,
`(r+c, t+c)`, `(r+c, b-c)`, `(l-c, b-c)`, back to `(l-c, t+c)`, all four
segment styles straight (`0`), on the courtyard layer `F.CrtYd`. -/
theorem add_courtyard_spec :
    ∀ (m : PCBmodule) (c l r t b : ℚ),
      m.bounding_box = some (l, r, t, b) →
      m.add_courtyard c = some { m with Graphics := m.Graphics ++
        [GraphicItem.poly
          { Points := [(l - c, t + c), (r + c, t + c), (r + c, b - c),
              (l - c, b - c), (l - c, t + c)],
            Style := [0, 0, 0, 0], Linewidth := some (5 / 100), Closed := false,
            Layer := "F.CrtYd", Units := "MM" }] } := by
  intro m c l r t b h
  simp only [PCBmodule.add_courtyard, h]

/-- Witness for C5: bounding box `(-1, 1, 1, -1)` and clearance `0.5` give
courtyard corners `(-1.5, 1.5)`, `(1.5, 1.5)`, `(1.5, -1.5)`,
`(-1.5, -1.5)`, closed back to the first corner. -/
theorem add_courtyard_spec_witness :
    sample_module.add_courtyard (1 / 2) = some { sample_module with
      Graphics := sample_module.Graphics ++
        [GraphicItem.poly
          { Points := [(-1 - 1 / 2, 1 + 1 / 2), (1 + 1 / 2, 1 + 1 / 2),
              (1 + 1 / 2, -1 - 1 / 2), (-1 - 1 / 2, -1 - 1 / 2), (-1 - 1 / 2, 1 + 1 / 2)],
            Style := [0, 0, 0, 0], Linewidth := some (5 / 100), Closed := false,
            Layer := "F.CrtYd", Units := "MM" }] } :=
  add_courtyard_spec sample_module (1 / 2) (-1) 1 1 (-1) (by decide)

/-- The corner loop returns as many style codes as corner points. -/
theorem read_corners_lengths (rs : List InputRecord) :
    ∀ pts sts rem, read_corners rs = some (pts, sts, rem) → pts.length = sts.length := by
  induction rs with
  | nil =>
    intro pts sts rem h
    simp only [read_corners, Option.some.injEq, Prod.mk.injEq] at h
    obtain ⟨rfl, rfl, rfl⟩ := h
    rfl
  | cons hd tl ih =>
    obtain ⟨k, v⟩ := hd
    intro pts sts rem h
    by_cases hk : k = "next_corner"
    · subst hk
      simp only [read_corners, if_pos rfl] at h
      rcases v with _ | ⟨a, _ | ⟨b, _ | ⟨c, _ | ⟨d, v2⟩⟩⟩⟩ <;> try simp at h
      cases hrec : read_corners tl with
      | none => rw [hrec] at h; simp at h
      | some triple =>
        obtain ⟨pts2, sts2, rem2⟩ := triple
        rw [hrec] at h
        simp only [Option.some.injEq, Prod.mk.injEq] at h
        obtain ⟨rfl, rfl, rfl⟩ := h
        simp [ih _ _ _ hrec]
    · simp only [read_corners, if_neg hk, Option.some.injEq, Prod.mk.injEq] at h
      obtain ⟨rfl, rfl, rfl⟩ := h
      rfl

/-- C6 counterexample: the closed polyline built from the record stream
`outline_polyline (1, 0, 0)`, `next_corner (10, 0, 0)`, `close_polyline`
has 3 points but only 1 segment style, not the `len(points) - 1 = 2` the
claimed invariant requires (the closing record appends a point without
appending a style). -/
theorem polyline_invariant_counterexample :
    (Polyline.create_from_freepcb
      [("outline_polyline", [1, 0, 0]), ("next_corner", [10, 0, 0]), ("close_polyline", [1])]
      "NM").map (fun pr => (pr.1.Points.length, pr.1.Style.length, pr.1.Closed)) =
      some (3, 1, true) ∧ (1 : Nat) ≠ 3 - 1 :=
  ⟨rfl, by decide⟩

/-- C6 (amended): every polyline built by `create_from_freepcb` has at
least one point; an open polyline has exactly `len(points) - 1` segment
styles; a closed polyline has at least two points, its last point equal to
its first, and exactly `len(points) - 2` segment styles (the closing
segment has no style of its own). -/
theorem polyline_invariant_amended :
    ∀ (rs : List InputRecord) (units : String) (pl : Polyline) (rem : List InputRecord),
      Polyline.create_from_freepcb rs units = some (pl, rem) →
      1 ≤ pl.Points.length ∧
      (pl.Closed = false → pl.Style.length + 1 = pl.Points.length) ∧
      (pl.Closed = true → pl.Style.length + 2 = pl.Points.length ∧
        2 ≤ pl.Points.length ∧ pl.Points.head? = pl.Points.getLast?) := by
  intro rs units pl rem h
  match rs with
  | [] => simp [Polyline.create_from_freepcb] at h
  | (k, v) :: rest =>
    by_cases hk : k = "outline_polyline"
    case neg => simp [Polyline.create_from_freepcb, hk] at h
    subst hk
    simp only [Polyline.create_from_freepcb, if_pos rfl] at h
    rcases v with _ | ⟨w, _ | ⟨x, _ | ⟨y, _ | ⟨z, v2⟩⟩⟩⟩ <;> try simp at h
    cases hrec : read_corners rest with
    | none => rw [hrec] at h; simp at h
    | some triple =>
      obtain ⟨corners, styles, remaining⟩ := triple
      rw [hrec] at h
      have hlen : corners.length = styles.length := read_corners_lengths rest _ _ _ hrec
      match remaining with
      | [] =>
        simp only [Option.some.injEq, Prod.mk.injEq] at h
        obtain ⟨rfl, rfl⟩ := h
        refine ⟨by simp, fun _ => by simp [← hlen], fun hcl => by simp at hcl⟩
      | (k2, v2) :: rest2 =>
        by_cases hk2 : k2 = "close_polyline"
        · subst hk2
          simp only [if_pos rfl, Option.some.injEq, Prod.mk.injEq] at h
          obtain ⟨rfl, rfl⟩ := h
          refine ⟨by simp, fun hcl => by simp at hcl, fun _ => ?_⟩
          refine ⟨by simp [← hlen], by simp, ?_⟩
          show ((x, y) :: (corners ++ [(x, y)])).head? =
            ((x, y) :: (corners ++ [(x, y)])).getLast?
          rw [show (x, y) :: (corners ++ [(x, y)]) = ((x, y) :: corners) ++ [(x, y)] by simp,
            List.getLast?_concat]
          simp
        · simp only [if_neg hk2, Option.some.injEq, Prod.mk.injEq] at h
          obtain ⟨rfl, rfl⟩ := h
          refine ⟨by simp, fun _ => by simp [← hlen], fun hcl => by simp at hcl⟩

/-- Witness for the amended C6 at the single-record stream
`outline_polyline (1, 2, 3)`, which builds a one-point open polyline. -/
theorem polyline_invariant_amended_witness :
    1 ≤ (Polyline.mk [(2, 3)] [] (some 1) false "F.SilkS" "NM").Points.length ∧
    ((Polyline.mk [(2, 3)] [] (some 1) false "F.SilkS" "NM").Closed = false →
      (Polyline.mk [(2, 3)] [] (some 1) false "F.SilkS" "NM").Style.length + 1 =
        (Polyline.mk [(2, 3)] [] (some 1) false "F.SilkS" "NM").Points.length) ∧
    ((Polyline.mk [(2, 3)] [] (some 1) false "F.SilkS" "NM").Closed = true →
      (Polyline.mk [(2, 3)] [] (some 1) false "F.SilkS" "NM").Style.length + 2 =
        (Polyline.mk [(2, 3)] [] (some 1) false "F.SilkS" "NM").Points.length ∧
      2 ≤ (Polyline.mk [(2, 3)] [] (some 1) false "F.SilkS" "NM").Points.length ∧
      (Polyline.mk [(2, 3)] [] (some 1) false "F.SilkS" "NM").Points.head? =
        (Polyline.mk [(2, 3)] [] (some 1) false "F.SilkS" "NM").Points.getLast?) :=
  polyline_invariant_amended [("outline_polyline", [1, 2, 3])] "NM"
    (Polyline.mk [(2, 3)] [] (some 1) false "F.SilkS" "NM") [] rfl

/-- C8: merging two libraries fails with the duplicate-name error exactly
when some footprint name occurs in both; with disjoint names the merge
succeeds and the result is the first library's footprints, unchanged and in
order, followed by the second library's footprints (and the second
library's options object). -/
theorem library_merge_spec :
    (∀ a b : Library, (∃ e, a.iadd b = Except.error e) ↔
      ∃ i ∈ a.Modules, ∃ j ∈ b.Modules, i.Name = j.Name) ∧
    (∀ a b : Library, (¬ ∃ i ∈ a.Modules, ∃ j ∈ b.Modules, i.Name = j.Name) →
      a.iadd b = Except.ok { Modules := a.Modules ++ b.Modules, opts := b.opts }) := by
  have key : ∀ a b : Library,
      (a.Modules.find? (fun i => b.Modules.any (fun j => i.Name == j.Name))).isSome ↔
        ∃ i ∈ a.Modules, ∃ j ∈ b.Modules, i.Name = j.Name := by
    intro a b
    rw [List.find?_isSome]
    constructor
    · rintro ⟨i, hi, hp⟩
      exact ⟨i, hi, by simpa using List.any_eq_true.mp hp⟩
    · rintro ⟨i, hi, j, hj, hn⟩
      exact ⟨i, hi, List.any_eq_true.mpr ⟨j, hj, by simpa using hn⟩⟩
  constructor
  · intro a b
    rw [← key a b]
    unfold Library.iadd
    cases hf : a.Modules.find? (fun i => b.Modules.any (fun j => i.Name == j.Name)) with
    | none => simp [hf]
    | some i => simp [hf]
  · intro a b h
    rw [← key a b] at h
    unfold Library.iadd
    cases hf : a.Modules.find? (fun i => b.Modules.any (fun j => i.Name == j.Name)) with
    | none => rfl
    | some i => rw [hf] at h; simp at h

/-- Witness for C8: merging the disjoint one-footprint libraries `R0805`
and `C0603` succeeds with the concatenated module list. -/
theorem library_merge_spec_witness :
    sample_lib_a.iadd sample_lib_b = Except.ok
      { Modules := sample_lib_a.Modules ++ sample_lib_b.Modules, opts := sample_lib_b.opts } :=
  library_merge_spec.2 sample_lib_a sample_lib_b (by decide)

end Freepcb2Pretty
